import Mathlib

/-!
Shallow embedding of `src/rentry.py` (Rentry Content Explorer).

The program is a sequential loop: generate a random lowercase-alphanumeric
token, probe `https://rentry.co/<token>` with an HTTP HEAD (GET fallback on
405), classify 404 as AVAILABLE, accumulate AVAILABLE urls until a target
count or an attempt budget is reached, then print a summary and optionally
write a plain-text report.

Modelling conventions:
* the network is an oracle: the outcome of each HTTP call (a status code or
  a raised `requests.RequestException`) is a parameter;
* Python's `random.randint(a, b)` is modelled as `a + r` for a uniform
  `r : Fin (b+1-a)`, and `random.choice(chars)` as indexing by a uniform
  `Fin 36`, matching CPython's uniform `_randbelow`;
* the float expression `len/attempts*100` formatted with `:.1f` is modelled
  by exact rational rounding (round half to even) to one decimal digit;
* console output is modelled as the list of strings passed to `print`, and
  the report file as a filename together with the list of written lines;
* `KeyboardInterrupt` is modelled as an optional attempt count at which the
  interrupt fires (between iterations, after that many attempts completed);
* the `while` loop is driven by explicit fuel; theorems that speak about the
  loop's exit supply enough fuel for the source loop's own stopping
  conditions, and invariants are proved for every fuel.
-/

/-- Outcome of one HTTP call made through `requests`: either a response with
a status code (and body text), or a raised `requests.RequestException`. -/
inductive HttpOutcome where
  | resp (status_code : Nat) (text : String) : HttpOutcome
  | exn (msg : String) : HttpOutcome
deriving DecidableEq

/-- One HTTP request as issued by `requests.Session` in `rentry.py`,
recording method, url, timeout (seconds) and redirect following. -/
structure HttpRequest where
  method : String
  url : String
  timeout : Nat
  allow_redirects : Bool
deriving DecidableEq

/-- Alphabet `string.ascii_lowercase + string.digits` (line 40). -/
def ascii_chars : List Char := "abcdefghijklmnopqrstuvwxyz0123456789".toList

theorem ascii_chars_length : ascii_chars.length = 36 := by decide

/-- Model of `random.choice(chars)`: pick index `k` (uniform below 36) into the
alphabet. -/
def randomChoice (k : Fin 36) : Char :=
  ascii_chars.get (Fin.cast ascii_chars_length.symm k)

/-- Embedding of `RentryLinkGenerator.generate_random(length)`
(lines 38-41): join of
`length` uniform choices from the 36-character alphabet; `pick i` is the
choice made for position `i`. -/
def generate_random (length : Nat) (pick : Nat → Fin 36) : String :=
  String.mk ((List.range length).map fun i => randomChoice (pick i))

/-- Model of `random.randint(a, b)`: uniform integer in `[a, b]`, modelled as `a + r`
for a uniform `r : Fin (b+1-a)`. -/
def randint (a b : Nat) (r : Fin (b + 1 - a)) : Nat := a + r.val

/-- The token generated at (0-based) attempt `i` by line 172:
`generate_random(random.randint(4, 8))`, with `lenChoice i` the uniform
draw of `randint` and `picks i` the stream of character choices. -/
def tokenAt (lenChoice : Nat → Fin 5) (picks : Nat → Nat → Fin 36) (i : Nat) : String :=
  generate_random (randint 4 8 (lenChoice i)) (picks i)

/-- Embedding of `RentryContentExplorer.test_url_availability`
(lines 131-143), with the
trace of HTTP requests it issues. `headOutcome` is what the HEAD call
returns; `getOutcome` what the GET call would return if made. Returns the
boolean result together with the list of requests issued, in order. -/
def test_url_availability (headOutcome getOutcome : HttpOutcome) (url_id : String) :
    Bool × List HttpRequest :=
  let full_url := "https://rentry.co/" ++ url_id
  let headReq : HttpRequest := ⟨"HEAD", full_url, 5, true⟩
  let getReq : HttpRequest := ⟨"GET", full_url, 5, true⟩
  match headOutcome with
  | HttpOutcome.exn _ => (false, [headReq])
  | HttpOutcome.resp c _ =>
    if c = 405 then
      match getOutcome with
      | HttpOutcome.exn _ => (false, [headReq, getReq])
      | HttpOutcome.resp c2 _ => (c2 == 404, [headReq, getReq])
    else (c == 404, [headReq])

/-- The dict built by `RentryContentExplorer.analyze_page_content`
(lines 54-129). -/
structure PageAnalysis where
  status_code : Nat
  url : String
  is_available : Bool
  is_error_page : Bool
  has_content : Bool
  content_type : String
  title : String
  should_open : Bool
deriving DecidableEq

/-- Python's `pat in s` substring test (for the nonempty literal patterns of
`rentry.py`): `s.splitOn pat` has more than one part iff `pat` occurs. -/
def substrIn (pat s : String) : Bool := (s.splitOn pat).length != 1

/-- The `error_indicators` list (lines 73-80). -/
def error_indicators : List String :=
  ["error", "404 not found", "page not found", "not found", "oops",
   "something went wrong"]

/-- The `rentry_indicators` list (lines 88-95). -/
def rentry_indicators : List String :=
  ["rentry", "markdown paste service", "edit code", "custom url", "paste",
   "markdown"]

/-- Model of the title extraction (lines 98-100), the non-greedy search for
the pattern between `<title>` and `</title>` followed by `.strip()`: the
text between the first `<title>` and the next `</title>` after it, trimmed;
`none` when the pattern does not match. No theorem below depends on the
title of a successful response. -/
def findTitle (content : String) : Option String :=
  match content.splitOn "<title>" with
  | [] => none
  | [_] => none
  | _ :: rest =>
    let after := String.intercalate "<title>" rest
    match after.splitOn "</title>" with
    | [] => none
    | [_] => none
    | t :: _ :: _ => some t.trim

/-- Embedding of `RentryContentExplorer.analyze_page_content`
(lines 54-129): classify the
GET outcome for `url`. The sequential dict updates of the source are encoded
as nested lets in source order. -/
def analyze_page_content (outcome : HttpOutcome) (url : String) : PageAnalysis :=
  match outcome with
  | HttpOutcome.exn e =>
    { status_code := 0, url := url, is_available := false,
      is_error_page := true, has_content := false,
      content_type := "request_error", title := "Error: " ++ e,
      should_open := false }
  | HttpOutcome.resp status text =>
    let content := text.toLower
    let isErr := error_indicators.any fun ind => substrIn ind content
    let title := (findTitle content).getD ""
    let base : PageAnalysis :=
      { status_code := status, url := url, is_available := false,
        is_error_page := isErr, has_content := false,
        content_type := if isErr then "error_page" else "unknown",
        title := title, should_open := false }
    if status = 404 then
      { base with is_available := true, content_type := "available" }
    else if status = 200 then
      if rentry_indicators.any (fun ind => substrIn ind content) then
        { base with has_content := true, content_type := "taken_with_content" }
      else
        { base with content_type := "unknown_content" }
    else base

/-- The target count of `explore_content`: a positive integer or the
`float('inf')` sentinel of unlimited mode. -/
inductive Count where
  | fin : Nat → Count
  | inf : Count
deriving DecidableEq

/-- Comparison `n < c` for a count `c` (`len(available_urls) < count`,
`attempts < max_attempts`); every natural is below `float('inf')`. -/
def Count.ltC (n : Nat) : Count → Bool
  | Count.fin m => n < m
  | Count.inf => true

/-- Default attempt budget (lines 148-152): `count * 10`, or unlimited when
the target is unlimited. -/
def defaultMax : Count → Count
  | Count.fin n => Count.fin (n * 10)
  | Count.inf => Count.inf

/-- State of `explore_content` when its `while` loop ends:
`available_urls`, `attempts`, and whether a `KeyboardInterrupt` ended it. -/
structure LoopResult where
  urls : List String
  attempts : Nat
  interrupted : Bool
deriving DecidableEq

/-- The `while` loop of `explore_content` (lines 164-201). Each iteration:
check the two stopping conditions, generate `tokenAt` for the current
attempt index, probe it through the oracle `avail` (the availability test
result for that attempt), and append the full url when available.
`interrupt = some n` means a `KeyboardInterrupt` fires once `n` attempts
have completed; `fuel` bounds the number of iterations unfolded and is
taken large enough for the loop's own stopping conditions in every theorem
about the loop's exit. -/
def explore_loop (count maxA : Count) (lenChoice : Nat → Fin 5)
    (picks : Nat → Nat → Fin 36) (avail : Nat → String → Bool)
    (interrupt : Option Nat) : Nat → List String → Nat → LoopResult
  | 0, urls, attempts => ⟨urls, attempts, false⟩
  | fuel + 1, urls, attempts =>
    if interrupt = some attempts then ⟨urls, attempts, true⟩
    else if Count.ltC urls.length count && Count.ltC attempts maxA then
      let url_id := tokenAt lenChoice picks attempts
      let full_url := "https://rentry.co/" ++ url_id
      let urls2 := if avail attempts url_id then urls ++ [full_url] else urls
      explore_loop count maxA lenChoice picks avail interrupt fuel urls2 (attempts + 1)
    else ⟨urls, attempts, false⟩

/-- Embedding of `explore_content` up to the end of its loop
(lines 145-201): resolve the
default attempt budget and run the loop from the empty state. -/
def explore_content (count : Count) (maxAttempts : Option Count)
    (lenChoice : Nat → Fin 5) (picks : Nat → Nat → Fin 36)
    (avail : Nat → String → Bool) (interrupt : Option Nat) (fuel : Nat) :
    LoopResult :=
  let maxA := match maxAttempts with
    | none => defaultMax count
    | some m => m
  explore_loop count maxA lenChoice picks avail interrupt fuel [] 0

/-- Python's `"x" * n` repetition. -/
def sepStr (c : Char) (n : Nat) : String := "".pushn c n

/-- Python's `f"{i:2d}"`: decimal right-aligned to width 2. -/
def fmt2d (i : Nat) : String := if i < 10 then " " ++ toString i else toString i

/-- A single-quote character, written via its code point. -/
def sglq : String := String.singleton (Char.ofNat 39)

/-- Round `p / q` to the nearest integer, ties to even (the rounding of
float formatting, applied here to the exact rational value). -/
def roundHalfEven (p q : Nat) : Nat :=
  if 2 * (p % q) < q then p / q
  else if q < 2 * (p % q) then p / q + 1
  else if (p / q) % 2 = 0 then p / q else p / q + 1

/-- The f-string rendering of the rate at line 223, modelled as the exact
rational `available * 100 / attempts` rendered to one decimal digit. -/
def formatRate1f (available attempts : Nat) : String :=
  let t := roundHalfEven (available * 1000) attempts
  toString (t / 10) ++ "." ++ toString (t % 10)

/-- The report file: its name and the lines written to it. -/
structure FileReport where
  filename : String
  lines : List String
deriving DecidableEq

/-- Console prints and optional report file produced after the loop. -/
structure ReporterOutput where
  printed : List String
  file : Option FileReport
deriving DecidableEq

/-- The lines written to the report file (lines 218-228). -/
def reportFileLines (urls : List String) (attempts : Nat) (tstr : String) :
    List String :=
  ["Available Rentry.co URLs",
   sepStr '=' 30,
   "Generated: " ++ tstr,
   "Method: random",
   "Total attempts: " ++ toString attempts,
   "Success rate: " ++ formatRate1f urls.length attempts ++ "%",
   "",
   "Available URLs (copy these to create new rentry.co pastes):",
   sepStr '-' 50] ++
  (urls.enum.map fun p => fmt2d (p.1 + 1) ++ ". " ++ p.2)

/-- The summary line printed at line 205. -/
def resultsLine (urls : List String) (attempts : Nat) : String :=
  "📊 Results: " ++ toString urls.length ++ " available URLs | " ++
    toString (attempts - urls.length) ++ " taken URLs | " ++
    toString attempts ++ " total attempts"

/-- The reporting tail of `explore_content` (lines 200-235): the
`KeyboardInterrupt` notice when the loop was interrupted, the summary
print, and either the numbered list plus report file (when any url was
collected) or the none-found notice. `ts` is the Unix timestamp and `tstr`
the formatted wall-clock time. When `attempts = 0` with a nonempty list
(unreachable from the loop), line 223 raises `ZeroDivisionError` inside the
`try`, which is caught at line 232: no complete file is produced. -/
def report_results (urls : List String) (attempts : Nat) (interrupted : Bool)
    (ts : Nat) (tstr : String) : ReporterOutput :=
  let pre := if interrupted
    then ["\n\n⛔ Stopped by user after " ++ toString attempts ++ " attempts"]
    else []
  let summary := pre ++ [sepStr '=' 60, resultsLine urls attempts]
  if urls.isEmpty then
    ⟨summary ++ ["\n❌ No available URLs found. Try again or run longer."], none⟩
  else
    let header := "\n📋 Available URLs (ready to use for creating pastes):"
    let urlLines := urls.enum.map fun p => "   " ++ fmt2d (p.1 + 1) ++ ". " ++ p.2
    let filename := "available_rentry_urls_" ++ toString ts ++ ".txt"
    if attempts = 0 then
      ⟨summary ++ [header] ++ urlLines ++
        ["\n❌ Could not save to file: division by zero"], none⟩
    else
      ⟨summary ++ [header] ++ urlLines ++
        ["\n💾 Saved results to " ++ sglq ++ filename ++ sglq],
       some ⟨filename, reportFileLines urls attempts tstr⟩⟩

/-- Embedding of `explore_content` in full: run the loop, then report
(lines 145-237);
the function value is the loop result paired with the reporter output (the
source returns `available_urls`, which is the `urls` field). -/
def explore_and_report (count : Count) (maxAttempts : Option Count)
    (lenChoice : Nat → Fin 5) (picks : Nat → Nat → Fin 36)
    (avail : Nat → String → Bool) (interrupt : Option Nat) (fuel : Nat)
    (ts : Nat) (tstr : String) : LoopResult × ReporterOutput :=
  let r := explore_content count maxAttempts lenChoice picks avail interrupt fuel
  (r, report_results r.urls r.attempts r.interrupted ts tstr)

/-- Process exit: an explicit status code, or falling off the end of the
script. -/
inductive ExitStatus where
  | code : Nat → ExitStatus
  | normal : ExitStatus
deriving DecidableEq

/-- An exception escaping the body of `main`'s `try`. -/
inductive PyError where
  | keyboardInterrupt : PyError
  | exn : String → PyError
deriving DecidableEq

/-- Embedding of `check_dependencies` (lines 239-249): report whether
the `requests` library imports,
printing installation guidance when it does not. -/
def check_dependencies (requestsAvailable : Bool) : Bool × List String :=
  if requestsAvailable then (true, [])
  else (false,
    ["❌ Missing required dependency: requests",
     "\n📦 Please install it:",
     "   pip install requests",
     "   (or pip3 install requests)"])

/-- Embedding of `main` (lines 293-326): exit 1 when
`check_dependencies` fails,
otherwise run the body; `KeyboardInterrupt` and any `Exception` raised by
the body are caught and printed, after which the function returns normally.
`bodyError = none` models a body that runs to completion. -/
def main_model (requestsAvailable : Bool) (bodyError : Option PyError) :
    ExitStatus × List String :=
  let dep := check_dependencies requestsAvailable
  if !dep.1 then (ExitStatus.code 1, dep.2)
  else match bodyError with
    | none => (ExitStatus.normal, [])
    | some PyError.keyboardInterrupt =>
      (ExitStatus.normal, ["\n\n⛔ Operation cancelled by user."])
    | some (PyError.exn e) =>
      (ExitStatus.normal,
       ["\n❌ Unexpected error: " ++ e,
        "💡 Try running the script again or check your internet connection."])

/-- Execution of the script as a process: module-level statements run first,
and the `import requests` at line 9 raises `ModuleNotFoundError` when the
library is missing. That exception is unhandled (no `try` encloses module
level), so the interpreter prints a traceback and exits with status 1
before `check_dependencies` or `main` ever run. Only when the import
succeeds does `main()` (line 329) execute. -/
def run_script (requestsAvailable : Bool) (bodyError : Option PyError) :
    ExitStatus × List String :=
  if requestsAvailable then main_model requestsAvailable bodyError
  else
    (ExitStatus.code 1,
     ["Traceback (most recent call last):",
      "  File " ++ sglq ++ "rentry.py" ++ sglq ++ ", line 9, in <module>",
      "    import requests",
      "ModuleNotFoundError: No module named " ++ sglq ++ "requests" ++ sglq])

/-! ### Helper lemmas about the token generator -/

theorem generate_random_length (L : Nat) (p : Nat → Fin 36) :
    (generate_random L p).length = L := by
  show ((List.range L).map fun i => randomChoice (p i)).length = L
  simp

theorem randomChoice_mem (k : Fin 36) : randomChoice k ∈ ascii_chars :=
  List.get_mem _ _ _

theorem generate_random_mem (L : Nat) (p : Nat → Fin 36) :
    ∀ c ∈ (generate_random L p).toList, c ∈ ascii_chars := by
  intro c hc
  have hc2 : c ∈ (List.range L).map fun i => randomChoice (p i) := hc
  obtain ⟨i, _, rfl⟩ := List.mem_map.mp hc2
  exact randomChoice_mem _

theorem tokenAt_length (lc : Nat → Fin 5) (pk : Nat → Nat → Fin 36) (i : Nat) :
    4 ≤ (tokenAt lc pk i).length ∧ (tokenAt lc pk i).length ≤ 8 := by
  have h5 : (lc i).val < 5 := (lc i).isLt
  have : (tokenAt lc pk i).length = 4 + (lc i).val := by
    simp [tokenAt, randint, generate_random_length]
  omega

theorem ascii_chars_nodup : ascii_chars.Nodup := by decide

theorem generate_random_inj (L : Nat) (p q : Nat → Fin 36)
    (h : generate_random L p = generate_random L q) : ∀ i, i < L → p i = q i := by
  intro i hi
  have hdata : ((List.range L).map fun j => randomChoice (p j)) =
      (List.range L).map fun j => randomChoice (q j) := congrArg String.data h
  have h2 := List.map_inj_left.mp hdata i (List.mem_range.mpr hi)
  unfold randomChoice at h2
  have h3 := (ascii_chars_nodup.get_inj_iff).mp h2
  exact Fin.ext (congrArg Fin.val h3)

theorem generate_random_surj (L : Nat) (s : String) (hlen : s.length = L)
    (hmem : ∀ c ∈ s.toList, c ∈ ascii_chars) :
    ∃ p : Nat → Fin 36, generate_random L p = s := by
  have hidx : ∀ c, c ∈ ascii_chars → ascii_chars.indexOf c < 36 := fun c hc =>
    ascii_chars_length ▸ List.indexOf_lt_length.mpr hc
  have hmem2 : ∀ i, s.data.getD i 'a' ∈ ascii_chars := by
    intro i
    by_cases h : i < s.data.length
    · rw [List.getD_eq_get _ _ h]
      exact hmem _ (List.get_mem _ _ _)
    · rw [List.getD_eq_default _ _ (le_of_not_lt h)]
      decide
  refine ⟨fun i => ⟨ascii_chars.indexOf (s.data.getD i 'a'), hidx _ (hmem2 i)⟩, ?_⟩
  cases s with
  | mk data =>
    have hL : data.length = L := hlen
    show String.mk ((List.range L).map _) = String.mk data
    refine congrArg String.mk ?_
    apply List.ext_get
    · simpa using hL.symm
    · intro i h1 h2
      simp only [List.get_map, List.get_range]
      have hget : data.getD i 'a' = data.get ⟨i, h2⟩ := List.getD_eq_get _ _ h2
      exact (List.indexOf_get (ascii_chars_length.symm ▸ hidx _ (hmem2 i))).trans hget

theorem randint48_bij (L : Nat) :
    (4 ≤ L ∧ L ≤ 8) ↔ ∃! r : Fin 5, randint 4 8 r = L := by
  constructor
  · rintro ⟨h4, h8⟩
    refine ⟨⟨L - 4, by omega⟩, by simp [randint]; omega, ?_⟩
    rintro ⟨v, hv⟩ hr
    simp [randint] at hr
    apply Fin.ext
    simp
    omega
  · rintro ⟨⟨v, hv⟩, hr, _⟩
    simp [randint] at hr
    omega

/-! ### Helper lemmas about the exploration loop -/

theorem explore_loop_append (count maxA : Count) (lc : Nat → Fin 5)
    (pk : Nat → Nat → Fin 36) (avail : Nat → String → Bool)
    (intr : Option Nat) :
    ∀ fuel urls attempts, ∃ t,
      (explore_loop count maxA lc pk avail intr fuel urls attempts).urls = urls ++ t := by
  intro fuel
  induction fuel with
  | zero => intro urls attempts; exact ⟨[], by simp [explore_loop]⟩
  | succ n ih =>
    intro urls attempts
    by_cases hi : intr = some attempts
    · exact ⟨[], by simp [explore_loop, hi]⟩
    · by_cases hc : (Count.ltC urls.length count && Count.ltC attempts maxA) = true
      · obtain ⟨t, ht⟩ := ih (if avail attempts (tokenAt lc pk attempts) then
            urls ++ ["https://rentry.co/" ++ tokenAt lc pk attempts] else urls) (attempts + 1)
        refine ⟨(if avail attempts (tokenAt lc pk attempts) then
            ["https://rentry.co/" ++ tokenAt lc pk attempts] else []) ++ t, ?_⟩
        simp only [explore_loop, if_neg hi, if_pos hc]
        by_cases ha : avail attempts (tokenAt lc pk attempts) = true
        · rw [if_pos ha] at ht ⊢
          rw [ht, List.append_assoc]
          simp [ha]
        · rw [if_neg ha] at ht ⊢
          rw [ht]
          simp [eq_false_of_ne_true ha]
      · exact ⟨[], by simp [explore_loop, hi, hc]⟩

theorem explore_loop_length_le (count maxA : Count) (lc : Nat → Fin 5)
    (pk : Nat → Nat → Fin 36) (avail : Nat → String → Bool) (intr : Option Nat) :
    ∀ fuel urls attempts, urls.length ≤ attempts →
      (explore_loop count maxA lc pk avail intr fuel urls attempts).urls.length ≤
        (explore_loop count maxA lc pk avail intr fuel urls attempts).attempts := by
  intro fuel
  induction fuel with
  | zero => intro urls attempts h; simpa [explore_loop] using h
  | succ n ih =>
    intro urls attempts h
    by_cases hi : intr = some attempts
    · simpa [explore_loop, hi] using h
    · by_cases hc : (Count.ltC urls.length count && Count.ltC attempts maxA) = true
      · simp only [explore_loop, if_neg hi, if_pos hc]
        apply ih
        by_cases ha : avail attempts (tokenAt lc pk attempts) = true
        · simp only [if_pos ha, List.length_append, List.length_cons, List.length_nil]
          omega
        · simp only [if_neg ha]
          omega
      · simpa [explore_loop, hi, hc] using h

theorem explore_loop_mem (count maxA : Count) (lc : Nat → Fin 5)
    (pk : Nat → Nat → Fin 36) (avail : Nat → String → Bool) (intr : Option Nat) :
    ∀ fuel urls attempts,
      ∀ u ∈ (explore_loop count maxA lc pk avail intr fuel urls attempts).urls,
        u ∈ urls ∨ ∃ i, u = "https://rentry.co/" ++ tokenAt lc pk i := by
  intro fuel
  induction fuel with
  | zero => intro urls attempts u hu; left; simpa [explore_loop] using hu
  | succ n ih =>
    intro urls attempts u hu
    by_cases hi : intr = some attempts
    · left; simpa [explore_loop, hi] using hu
    · by_cases hc : (Count.ltC urls.length count && Count.ltC attempts maxA) = true
      · simp only [explore_loop, if_neg hi, if_pos hc] at hu
        rcases ih _ _ u hu with h1 | h2
        · by_cases ha : avail attempts (tokenAt lc pk attempts) = true
          · rw [if_pos ha] at h1
            rcases List.mem_append.mp h1 with h3 | h3
            · exact Or.inl h3
            · exact Or.inr ⟨attempts, by simpa using h3⟩
          · rw [if_neg ha] at h1
            exact Or.inl h1
        · exact Or.inr h2
      · left; simpa [explore_loop, hi, hc] using hu

theorem explore_loop_count_le (n : Nat) (maxA : Count) (lc : Nat → Fin 5)
    (pk : Nat → Nat → Fin 36) (avail : Nat → String → Bool) (intr : Option Nat) :
    ∀ fuel urls attempts, urls.length ≤ n →
      (explore_loop (Count.fin n) maxA lc pk avail intr fuel urls attempts).urls.length ≤ n := by
  intro fuel
  induction fuel with
  | zero => intro urls attempts h; simpa [explore_loop] using h
  | succ m ih =>
    intro urls attempts h
    by_cases hi : intr = some attempts
    · simpa [explore_loop, hi] using h
    · by_cases hc : (Count.ltC urls.length (Count.fin n) &&
          Count.ltC attempts maxA) = true
      · have hlt : urls.length < n := by
          have := (Bool.and_eq_true _ _).mp hc |>.1
          simpa [Count.ltC] using this
        simp only [explore_loop, if_neg hi, if_pos hc]
        apply ih
        by_cases ha : avail attempts (tokenAt lc pk attempts) = true
        · simp only [if_pos ha, List.length_append, List.length_cons, List.length_nil]
          omega
        · simp only [if_neg ha]
          omega
      · simpa [explore_loop, hi, hc] using h

theorem explore_loop_stop (count : Count) (M : Nat) (lc : Nat → Fin 5)
    (pk : Nat → Nat → Fin 36) (avail : Nat → String → Bool) :
    ∀ fuel urls attempts, M ≤ attempts + fuel →
      Count.ltC (explore_loop count (Count.fin M) lc pk avail none fuel urls
          attempts).urls.length count = false ∨
      Count.ltC (explore_loop count (Count.fin M) lc pk avail none fuel urls
          attempts).attempts (Count.fin M) = false := by
  intro fuel
  induction fuel with
  | zero =>
    intro urls attempts h
    right
    simp [explore_loop, Count.ltC]
    omega
  | succ n ih =>
    intro urls attempts h
    have hi : ¬(none : Option Nat) = some attempts := by simp
    by_cases hc : (Count.ltC urls.length count && Count.ltC attempts (Count.fin M)) = true
    · simp only [explore_loop, if_neg hi, if_pos hc]
      exact ih _ _ (by omega)
    · simp only [explore_loop, if_neg hi, if_neg hc]
      exact Bool.and_eq_false_iff.mp (eq_false_of_ne_true hc)

theorem explore_loop_attempts_le (count maxA : Count) (lc : Nat → Fin 5)
    (pk : Nat → Nat → Fin 36) (avail : Nat → String → Bool) (N : Nat) :
    ∀ fuel urls attempts, attempts ≤ N →
      (explore_loop count maxA lc pk avail (some N) fuel urls attempts).attempts ≤ N := by
  intro fuel
  induction fuel with
  | zero => intro urls attempts h; simpa [explore_loop] using h
  | succ n ih =>
    intro urls attempts h
    by_cases hi : (some N : Option Nat) = some attempts
    · simpa [explore_loop, hi] using h
    · have hne : attempts ≠ N := fun he => hi (by rw [he])
      by_cases hc : (Count.ltC urls.length count && Count.ltC attempts maxA) = true
      · simp only [explore_loop, if_neg hi, if_pos hc]
        exact ih _ _ (by omega)
      · simpa [explore_loop, hi, hc] using h

theorem explore_loop_interrupt_exact (lc : Nat → Fin 5) (pk : Nat → Nat → Fin 36)
    (avail : Nat → String → Bool) (N : Nat) :
    ∀ fuel urls attempts, attempts ≤ N → N < attempts + fuel →
      (explore_loop Count.inf Count.inf lc pk avail (some N) fuel urls
          attempts).attempts = N ∧
      (explore_loop Count.inf Count.inf lc pk avail (some N) fuel urls
          attempts).interrupted = true := by
  intro fuel
  induction fuel with
  | zero => intro urls attempts h1 h2; omega
  | succ n ih =>
    intro urls attempts h1 h2
    by_cases hi : (some N : Option Nat) = some attempts
    · obtain rfl : N = attempts := Option.some.inj hi
      simp [explore_loop]
    · have hne : attempts ≠ N := fun he => hi (by rw [he])
      have hcond : (Count.ltC urls.length Count.inf &&
          Count.ltC attempts Count.inf) = true := by simp [Count.ltC]
      simp only [explore_loop, if_neg hi, if_pos hcond]
      exact ih _ _ (by omega) (by omega)

/-! ### Helper lemmas about rounding and the reporter -/

theorem roundHalfEven_close (p q : Nat) (hq : 0 < q) :
    -(q : ℤ) ≤ 2 * ((roundHalfEven p q : ℤ) * q - p) ∧
      2 * ((roundHalfEven p q : ℤ) * q - p) ≤ q := by
  have hr : p % q < q := Nat.mod_lt _ hq
  have hp : ((q : ℤ) * ((p / q : Nat) : ℤ) + ((p % q : Nat) : ℤ)) = p := by
    exact_mod_cast Nat.div_add_mod p q
  unfold roundHalfEven
  by_cases h1 : 2 * (p % q) < q
  · rw [if_pos h1]
    have h2 : ((p / q : Nat) : ℤ) * q - p = -((p % q : Nat) : ℤ) := by
      rw [← hp]; ring
    rw [h2]
    constructor <;> omega
  · rw [if_neg h1]
    have h3 : (((p / q : Nat) : ℤ) + 1) * q - p = (q : ℤ) - ((p % q : Nat) : ℤ) := by
      rw [← hp]; ring
    by_cases h2 : q < 2 * (p % q)
    · rw [if_pos h2]
      rw [Nat.cast_succ, h3]
      constructor <;> omega
    · rw [if_neg h2]
      by_cases h4 : (p / q) % 2 = 0
      · rw [if_pos h4]
        have h5 : ((p / q : Nat) : ℤ) * q - p = -((p % q : Nat) : ℤ) := by
          rw [← hp]; ring
        rw [h5]
        constructor <;> omega
      · rw [if_neg h4]
        rw [Nat.cast_succ, h3]
        constructor <;> omega

theorem resultsLine_mem_printed (urls : List String) (attempts : Nat)
    (interrupted : Bool) (ts : Nat) (tstr : String) :
    resultsLine urls attempts ∈ (report_results urls attempts interrupted ts tstr).printed := by
  by_cases h : urls.isEmpty
  · simp [report_results, h]
  · by_cases h0 : attempts = 0 <;> simp [report_results, h, h0]

theorem stopped_mem_printed (urls : List String) (attempts : Nat)
    (ts : Nat) (tstr : String) :
    ("\n\n⛔ Stopped by user after " ++ toString attempts ++ " attempts") ∈
      (report_results urls attempts true ts tstr).printed := by
  by_cases h : urls.isEmpty
  · simp [report_results, h]
  · by_cases h0 : attempts = 0 <;> simp [report_results, h, h0]

/-! ### Claims -/

/-- C1: the availability classification returns AVAILABLE exactly when the
HTTP response status (after the GET fallback, when taken) is 404; any other
status yields false; a raised request exception yields false, and the
content-analysis record for an exception sets `is_available := false` while
recording the error in its `title` and `content_type` fields. -/
theorem C1_availability_classification :
    (∀ (url_id : String) (g : HttpOutcome) (c : Nat) (t : String), c ≠ 405 →
      (((test_url_availability (HttpOutcome.resp c t) g url_id).1 = true) ↔ c = 404))
  ∧ (∀ (url_id : String) (g : HttpOutcome) (e : String),
      (test_url_availability (HttpOutcome.exn e) g url_id).1 = false)
  ∧ (∀ (url_id t : String) (c2 : Nat) (t2 : String),
      (((test_url_availability (HttpOutcome.resp 405 t) (HttpOutcome.resp c2 t2)
          url_id).1 = true) ↔ c2 = 404))
  ∧ (∀ (url_id t e : String),
      (test_url_availability (HttpOutcome.resp 405 t) (HttpOutcome.exn e)
        url_id).1 = false)
  ∧ (∀ (url e : String),
      (analyze_page_content (HttpOutcome.exn e) url).is_available = false
      ∧ (analyze_page_content (HttpOutcome.exn e) url).title = "Error: " ++ e
      ∧ (analyze_page_content (HttpOutcome.exn e) url).content_type
          = "request_error") := by
  refine ⟨?_, ?_, ?_, ?_, ?_⟩
  · intro url_id g c t h
    simp [test_url_availability, h]
  · intro url_id g e
    rfl
  · intro url_id t c2 t2
    simp [test_url_availability]
  · intro url_id t e
    simp [test_url_availability]
  · intro url e
    exact ⟨rfl, rfl, rfl⟩

/-- Witness for C1: a 200 response is classified not-available. -/
theorem C1_witness :
    ((test_url_availability (HttpOutcome.resp 200 "x") (HttpOutcome.resp 200 "x")
      "abc").1 = true) ↔ 200 = 404 :=
  C1_availability_classification.1 "abc" (HttpOutcome.resp 200 "x") 200 "x"
    (by decide)

/-- C2: the loop stops exactly when collected ≥ target or attempts ≥
max_attempts (given fuel covering the budget), max_attempts defaults to
target×10 (unbounded for an unbounded target); with target 3 and an
always-available stub it performs exactly 3 probes, and with target 5 and a
never-available stub it stops after 50 probes with nothing collected. -/
theorem C2_loop_termination :
    (∀ (count : Count) (M : Nat) (lc : Nat → Fin 5) (pk : Nat → Nat → Fin 36)
        (avail : Nat → String → Bool) (fuel : Nat) (urls : List String)
        (attempts : Nat), M ≤ attempts + fuel →
      Count.ltC (explore_loop count (Count.fin M) lc pk avail none fuel urls
          attempts).urls.length count = false ∨
      Count.ltC (explore_loop count (Count.fin M) lc pk avail none fuel urls
          attempts).attempts (Count.fin M) = false)
  ∧ (∀ n, defaultMax (Count.fin n) = Count.fin (n * 10))
  ∧ defaultMax Count.inf = Count.inf
  ∧ ((explore_content (Count.fin 3) none (fun _ => 0) (fun _ _ => 0)
        (fun _ _ => true) none 30).attempts = 3
      ∧ (explore_content (Count.fin 3) none (fun _ => 0) (fun _ _ => 0)
          (fun _ _ => true) none 30).urls.length = 3)
  ∧ ((explore_content (Count.fin 5) none (fun _ => 0) (fun _ _ => 0)
        (fun _ _ => false) none 50).attempts = 50
      ∧ (explore_content (Count.fin 5) none (fun _ => 0) (fun _ _ => 0)
          (fun _ _ => false) none 50).urls = []) := by
  refine ⟨fun count M lc pk avail => explore_loop_stop count M lc pk avail,
    fun n => rfl, rfl, by constructor <;> decide, by constructor <;> decide⟩

/-- Witness for C2: with budget 1 and enough fuel the stop condition holds. -/
theorem C2_witness :
    Count.ltC (explore_loop (Count.fin 2) (Count.fin 1) (fun _ => 0)
        (fun _ _ => 0) (fun _ _ => true) none 1 [] 0).urls.length
      (Count.fin 2) = false ∨
    Count.ltC (explore_loop (Count.fin 2) (Count.fin 1) (fun _ => 0)
        (fun _ _ => 0) (fun _ _ => true) none 1 [] 0).attempts
      (Count.fin 1) = false :=
  C2_loop_termination.1 (Count.fin 2) 1 (fun _ => 0) (fun _ _ => 0)
    (fun _ _ => true) 1 [] 0 (by decide)

/-- C3 counterexample: with 2 available URLs out of 10 attempts the rendered
success rate is "20.0%", yet no printed line contains even a percent sign —
the success rate appears only in the report file, so the printed summary
does not contain it, contrary to the claim. -/
theorem C3_counterexample :
    ("Success rate: " ++ formatRate1f 2 10 ++ "%" = "Success rate: 20.0%")
  ∧ ((report_results ["https://rentry.co/abcd", "https://rentry.co/ef12"] 10
        false 1700000000 "2023-11-14 22:13:20").printed.all
      fun l => l.data.all fun ch => !(ch == '%')) = true
  ∧ (report_results ["https://rentry.co/abcd", "https://rentry.co/ef12"] 10
        false 1700000000 "2023-11-14 22:13:20").file =
      some ⟨"available_rentry_urls_1700000000.txt",
        reportFileLines ["https://rentry.co/abcd", "https://rentry.co/ef12"]
          10 "2023-11-14 22:13:20"⟩
  ∧ "Success rate: 20.0%" ∈
      reportFileLines ["https://rentry.co/abcd", "https://rentry.co/ef12"]
        10 "2023-11-14 22:13:20" := by
  refine ⟨by decide, by decide, by decide, by decide⟩

/-- C3 (amended): after the loop the program prints a summary line with the
counts of available, taken and total attempts; when the AVAILABLE list is
nonempty (and hence at least one attempt was recorded) it writes a
timestamped plain-text report listing the URLs, whose header carries the
success rate; when the list is empty it prints a none-found notice. -/
theorem C3_reporting :
    ∀ (urls : List String) (attempts : Nat) (interrupted : Bool) (ts : Nat)
      (tstr : String), (urls ≠ [] → 1 ≤ attempts) →
      (resultsLine urls attempts ∈
        (report_results urls attempts interrupted ts tstr).printed)
      ∧ (urls = [] →
          (report_results urls attempts interrupted ts tstr).file = none
          ∧ "\n❌ No available URLs found. Try again or run longer." ∈
              (report_results urls attempts interrupted ts tstr).printed)
      ∧ (urls ≠ [] → ∃ fr,
          (report_results urls attempts interrupted ts tstr).file = some fr
          ∧ fr.filename = "available_rentry_urls_" ++ toString ts ++ ".txt"
          ∧ ("Success rate: " ++ formatRate1f urls.length attempts ++ "%")
              ∈ fr.lines
          ∧ ∀ u ∈ urls, ∃ k ∈ fr.lines, ∃ i, k = fmt2d (i + 1) ++ ". " ++ u) := by
  intro urls attempts interrupted ts tstr hne
  refine ⟨resultsLine_mem_printed _ _ _ _ _, ?_, ?_⟩
  · rintro rfl
    constructor <;> simp [report_results]
  · intro hn
    have hemp : urls.isEmpty = false := by
      cases urls with
      | nil => exact absurd rfl hn
      | cons a l => rfl
    have h0 : attempts ≠ 0 := by
      have := hne hn
      omega
    refine ⟨⟨"available_rentry_urls_" ++ toString ts ++ ".txt",
      reportFileLines urls attempts tstr⟩, ?_, rfl, ?_, ?_⟩
    · simp [report_results, hemp, h0]
    · simp [reportFileLines]
    · intro u hu
      have hu2 : u ∈ urls.enum.map Prod.snd := by
        rw [List.enum_map_snd]; exact hu
      obtain ⟨p, hp, hps⟩ := List.mem_map.mp hu2
      refine ⟨fmt2d (p.1 + 1) ++ ". " ++ u, ?_, p.1, rfl⟩
      show _ ∈ reportFileLines urls attempts tstr
      unfold reportFileLines
      refine List.mem_append.mpr (Or.inr ?_)
      rw [← hps]
      exact List.mem_map_of_mem _ hp

/-- Witness for C3 at a concrete nonempty result. -/
theorem C3_witness :
    resultsLine ["https://rentry.co/abcd"] 3 ∈
      (report_results ["https://rentry.co/abcd"] 3 false 5 "t").printed :=
  (C3_reporting ["https://rentry.co/abcd"] 3 false 5 "t" (fun _ => by decide)).1

/-- C4 (code bug): when the `requests` library is missing the process does
exit with code 1, but via the unhandled module-level `import requests`
(line 9), so no installation guidance is printed — `check_dependencies`,
which would print the `pip install` guidance, never runs. With the library
present the script falls through to a normal exit, and `KeyboardInterrupt`
or any `Exception` escaping the body of `main` is caught and printed. -/
theorem C4_missing_dependency :
    (run_script false none).1 = ExitStatus.code 1
  ∧ ((run_script false none).2.all
      fun l => !(decide ("pip install".data <:+: l.data))) = true
  ∧ ((check_dependencies false).2.any
      fun l => decide ("pip install".data <:+: l.data)) = true
  ∧ run_script true none = (ExitStatus.normal, [])
  ∧ (run_script true (some (PyError.exn "boom"))).1 = ExitStatus.normal
  ∧ (run_script true (some PyError.keyboardInterrupt)).1 = ExitStatus.normal :=
  ⟨rfl, by decide, by decide, rfl, rfl, rfl⟩

/-- C5: every token produced by the loop's generator call has length in
[4,8] and characters from {a-z, 0-9}; the length map is a bijection from
the uniform `randint` draw onto [4,8], and for each length the map from
uniform character draws to tokens is a bijection onto the valid tokens, so
uniform primitive randomness induces the claimed uniform distribution. -/
theorem C5_token_distribution :
    (∀ (lc : Nat → Fin 5) (pk : Nat → Nat → Fin 36) (i : Nat),
      4 ≤ (tokenAt lc pk i).length ∧ (tokenAt lc pk i).length ≤ 8)
  ∧ (∀ (lc : Nat → Fin 5) (pk : Nat → Nat → Fin 36) (i : Nat),
      ∀ c ∈ (tokenAt lc pk i).toList, c ∈ ascii_chars)
  ∧ (∀ c ∈ ascii_chars, ('a' ≤ c ∧ c ≤ 'z') ∨ ('0' ≤ c ∧ c ≤ '9'))
  ∧ (∀ L, (4 ≤ L ∧ L ≤ 8) ↔ ∃! r : Fin 5, randint 4 8 r = L)
  ∧ (∀ (L : Nat) (p q : Nat → Fin 36),
      generate_random L p = generate_random L q → ∀ i, i < L → p i = q i)
  ∧ (∀ (L : Nat) (s : String), s.length = L →
      (∀ c ∈ s.toList, c ∈ ascii_chars) →
      ∃ p : Nat → Fin 36, generate_random L p = s) := by
  refine ⟨tokenAt_length, ?_, by decide, randint48_bij, generate_random_inj,
    generate_random_surj⟩
  intro lc pk i c hc
  exact generate_random_mem _ _ c hc

/-- Witness for C5: the valid token "ab12" is reached by some choice of
character draws. -/
theorem C5_witness : ∃ p : Nat → Fin 36, generate_random 4 p = "ab12" :=
  C5_token_distribution.2.2.2.2.2 4 "ab12" rfl (by decide)

/-- C6: the existence check always issues a HEAD request first, with
timeout 5 and redirects followed, and issues a follow-up GET (same url,
timeout 5) exactly when the HEAD call comes back with status 405
(method not allowed). -/
theorem C6_head_get_fallback :
    ∀ (head g : HttpOutcome) (url_id : String),
      ((test_url_availability head g url_id).2.head? =
        some ⟨"HEAD", "https://rentry.co/" ++ url_id, 5, true⟩)
      ∧ (((test_url_availability head g url_id).2.any
            fun r => r.method == "GET") = true ↔
          ∃ t, head = HttpOutcome.resp 405 t)
      ∧ ((∃ t, head = HttpOutcome.resp 405 t) →
          (test_url_availability head g url_id).2 =
            [⟨"HEAD", "https://rentry.co/" ++ url_id, 5, true⟩,
             ⟨"GET", "https://rentry.co/" ++ url_id, 5, true⟩])
      ∧ ((∀ t, head ≠ HttpOutcome.resp 405 t) →
          (test_url_availability head g url_id).2 =
            [⟨"HEAD", "https://rentry.co/" ++ url_id, 5, true⟩]) := by
  intro head g url_id
  cases head with
  | exn e =>
    refine ⟨rfl, ?_, ?_, fun _ => rfl⟩
    · simp [test_url_availability]
    · rintro ⟨t, ht⟩
      exact (HttpOutcome.noConfusion ht)
  | resp c t0 =>
    by_cases h5 : c = 405
    · subst h5
      refine ⟨?_, ?_, fun _ => ?_, fun hn => absurd rfl (hn t0)⟩
      · cases g <;> rfl
      · refine iff_of_true ?_ ⟨t0, rfl⟩
        cases g <;> simp [test_url_availability]
      · cases g <;> rfl
    · refine ⟨?_, ?_, ?_, fun _ => ?_⟩
      · simp [test_url_availability, h5]
      · apply iff_of_false
        · simp [test_url_availability, h5]
        · rintro ⟨t, ht⟩
          injection ht with hc htt
          exact h5 hc
      · rintro ⟨t, ht⟩
        injection ht with hc htt
        exact absurd hc h5
      · simp [test_url_availability, h5]

/-- Witness for C6: with a 405 HEAD response the trace is HEAD then GET. -/
theorem C6_witness :
    (test_url_availability (HttpOutcome.resp 405 "") (HttpOutcome.resp 404 "")
        "abcd").2 =
      [⟨"HEAD", "https://rentry.co/" ++ "abcd", 5, true⟩,
       ⟨"GET", "https://rentry.co/" ++ "abcd", 5, true⟩] :=
  (C6_head_get_fallback (HttpOutcome.resp 405 "") (HttpOutcome.resp 404 "")
    "abcd").2.2.1 ⟨"", rfl⟩

/-- C7: the success-rate line of the report renders the exact value
(available/attempts)×100 to one decimal place — the printed tenths digit
count `roundHalfEven (available*1000) attempts` is within half a unit of
the exact value of `available*1000/attempts` — and for 2 available URLs out
of 10 attempts the line reads "Success rate: 20.0%". -/
theorem C7_success_rate :
    (∀ available attempts : Nat, 0 < attempts →
      -(attempts : ℤ) ≤ 2 * ((roundHalfEven (available * 1000) attempts : ℤ) *
          attempts - available * 1000)
      ∧ 2 * ((roundHalfEven (available * 1000) attempts : ℤ) * attempts -
          available * 1000) ≤ attempts)
  ∧ (∀ (urls : List String) (attempts : Nat) (tstr : String),
      (reportFileLines urls attempts tstr).get? 5 =
        some ("Success rate: " ++ formatRate1f urls.length attempts ++ "%"))
  ∧ formatRate1f 2 10 = "20.0"
  ∧ (reportFileLines ["https://rentry.co/abcd", "https://rentry.co/ef12"]
      10 "t").get? 5 = some "Success rate: 20.0%" := by
  refine ⟨?_, fun urls attempts tstr => rfl, by decide, by decide⟩
  intro a n hn
  exact roundHalfEven_close (a * 1000) n hn

/-- Witness for C7 at 2 available URLs in 10 attempts. -/
theorem C7_witness :
    -(10 : ℤ) ≤ 2 * ((roundHalfEven (2 * 1000) 10 : ℤ) * 10 - 2 * 1000)
    ∧ 2 * ((roundHalfEven (2 * 1000) 10 : ℤ) * 10 - 2 * 1000) ≤ 10 :=
  C7_success_rate.1 2 10 (by decide)

/-- C8: an interrupt after N attempts keeps the attempt counter at most N
with at most as many collected URLs; in the unlimited run (where only the
interrupt can stop the loop) the loop stops with exactly N attempts, and
the reporting tail prints the stopped-by-user notice and a summary line
built from exactly those N attempts, still listing the partial results. -/
theorem C8_cancellation :
    (∀ (count maxA : Count) (lc : Nat → Fin 5) (pk : Nat → Nat → Fin 36)
        (avail : Nat → String → Bool) (N fuel : Nat) (urls : List String)
        (attempts : Nat), attempts ≤ N → urls.length ≤ attempts →
      (explore_loop count maxA lc pk avail (some N) fuel urls
          attempts).attempts ≤ N
      ∧ (explore_loop count maxA lc pk avail (some N) fuel urls
          attempts).urls.length ≤
        (explore_loop count maxA lc pk avail (some N) fuel urls
          attempts).attempts)
  ∧ (∀ (lc : Nat → Fin 5) (pk : Nat → Nat → Fin 36)
        (avail : Nat → String → Bool) (N fuel : Nat), N < fuel →
      ∀ (ts : Nat) (tstr : String),
      (explore_content Count.inf none lc pk avail (some N) fuel).attempts = N
      ∧ (explore_content Count.inf none lc pk avail (some N) fuel).interrupted
          = true
      ∧ (explore_content Count.inf none lc pk avail (some N) fuel).urls.length
          ≤ N
      ∧ resultsLine
          (explore_content Count.inf none lc pk avail (some N) fuel).urls N ∈
          (report_results
            (explore_content Count.inf none lc pk avail (some N) fuel).urls N
            true ts tstr).printed
      ∧ ("\n\n⛔ Stopped by user after " ++ toString N ++ " attempts") ∈
          (report_results
            (explore_content Count.inf none lc pk avail (some N) fuel).urls N
            true ts tstr).printed) := by
  constructor
  · intro count maxA lc pk avail N fuel urls attempts h1 h2
    exact ⟨explore_loop_attempts_le count maxA lc pk avail N fuel urls attempts h1,
      explore_loop_length_le count maxA lc pk avail (some N) fuel urls attempts h2⟩
  · intro lc pk avail N fuel hf ts tstr
    have hx := explore_loop_interrupt_exact lc pk avail N fuel [] 0
      (Nat.zero_le _) (by omega)
    have hlen := explore_loop_length_le Count.inf Count.inf lc pk avail
      (some N) fuel [] 0 (Nat.le_refl 0)
    refine ⟨hx.1, hx.2, ?_, resultsLine_mem_printed _ _ _ _ _,
      stopped_mem_printed _ _ _ _⟩
    calc (explore_content Count.inf none lc pk avail (some N) fuel).urls.length
        ≤ (explore_content Count.inf none lc pk avail (some N) fuel).attempts :=
          hlen
      _ = N := hx.1

/-- Witness for C8: interrupt after 2 attempts of an unlimited run. -/
theorem C8_witness :
    (explore_content Count.inf none (fun _ => 0) (fun _ _ => 0)
      (fun _ _ => true) (some 2) 5).attempts = 2 :=
  (C8_cancellation.2 (fun _ => 0) (fun _ _ => 0) (fun _ _ => true) 2 5
    (by decide) 7 "t").1

/-- C9: the collected-URL count never exceeds the attempt count, so a
nonempty result forces at least one attempt; the reporter computes the
success-rate division only in the nonempty branch, where the divisor
`attempts` is therefore nonzero (an empty result produces no file and no
division). -/
theorem C9_no_division_by_zero :
    (∀ (count maxA : Count) (lc : Nat → Fin 5) (pk : Nat → Nat → Fin 36)
        (avail : Nat → String → Bool) (intr : Option Nat) (fuel : Nat)
        (urls : List String) (attempts : Nat), urls.length ≤ attempts →
      (explore_loop count maxA lc pk avail intr fuel urls
          attempts).urls.length ≤
        (explore_loop count maxA lc pk avail intr fuel urls attempts).attempts)
  ∧ (∀ (count : Count) (maxAttempts : Option Count) (lc : Nat → Fin 5)
        (pk : Nat → Nat → Fin 36) (avail : Nat → String → Bool)
        (intr : Option Nat) (fuel : Nat),
      (explore_content count maxAttempts lc pk avail intr fuel).urls.length ≤
        (explore_content count maxAttempts lc pk avail intr fuel).attempts
      ∧ ((explore_content count maxAttempts lc pk avail intr fuel).urls ≠ [] →
          (explore_content count maxAttempts lc pk avail intr fuel).attempts ≠ 0))
  ∧ (∀ (attempts : Nat) (interrupted : Bool) (ts : Nat) (tstr : String),
      (report_results [] attempts interrupted ts tstr).file = none)
  ∧ (∀ (urls : List String) (attempts : Nat) (interrupted : Bool) (ts : Nat)
        (tstr : String), urls ≠ [] → attempts ≠ 0 →
      ∃ fr, (report_results urls attempts interrupted ts tstr).file = some fr) := by
  refine ⟨explore_loop_length_le, ?_, ?_, ?_⟩
  · intro count maxAttempts lc pk avail intr fuel
    have h : (explore_content count maxAttempts lc pk avail intr
          fuel).urls.length ≤
        (explore_content count maxAttempts lc pk avail intr fuel).attempts :=
      explore_loop_length_le count _ lc pk avail intr fuel [] 0 (Nat.le_refl 0)
    refine ⟨h, fun hne h0 => ?_⟩
    have h1 : 1 ≤ (explore_content count maxAttempts lc pk avail intr
        fuel).urls.length := by
      cases hu : (explore_content count maxAttempts lc pk avail intr fuel).urls
      with
      | nil => exact absurd hu hne
      | cons a l => simp [hu]
    rw [h0] at h
    omega
  · intro attempts interrupted ts tstr
    rfl
  · intro urls attempts interrupted ts tstr hne h0
    have hemp : urls.isEmpty = false := by
      cases urls with
      | nil => exact absurd rfl hne
      | cons a l => rfl
    exact ⟨⟨"available_rentry_urls_" ++ toString ts ++ ".txt",
      reportFileLines urls attempts tstr⟩, by simp [report_results, hemp, h0]⟩

/-- Witness for C9: a short always-available run keeps the invariant. -/
theorem C9_witness :
    (explore_loop (Count.fin 2) (Count.fin 20) (fun _ => 0) (fun _ _ => 0)
        (fun _ _ => true) none 20 [] 0).urls.length ≤
      (explore_loop (Count.fin 2) (Count.fin 20) (fun _ => 0) (fun _ _ => 0)
        (fun _ _ => true) none 20 [] 0).attempts :=
  C9_no_division_by_zero.1 (Count.fin 2) (Count.fin 20) (fun _ => 0)
    (fun _ _ => 0) (fun _ _ => true) none 20 [] 0 (Nat.le_refl 0)

/-- C10: for a finite target the result list never exceeds the target;
every element is "https://rentry.co/" followed by a generator token
(length 4–8, lowercase alphanumeric); and the loop only ever appends to
the list — the final list extends any starting list. -/
theorem C10_result_urls :
    (∀ (n : Nat) (maxAttempts : Option Count) (lc : Nat → Fin 5)
        (pk : Nat → Nat → Fin 36) (avail : Nat → String → Bool)
        (intr : Option Nat) (fuel : Nat),
      (explore_content (Count.fin n) maxAttempts lc pk avail intr
        fuel).urls.length ≤ n)
  ∧ (∀ (count : Count) (maxAttempts : Option Count) (lc : Nat → Fin 5)
        (pk : Nat → Nat → Fin 36) (avail : Nat → String → Bool)
        (intr : Option Nat) (fuel : Nat),
      ∀ u ∈ (explore_content count maxAttempts lc pk avail intr fuel).urls,
        ∃ i, u = "https://rentry.co/" ++ tokenAt lc pk i
          ∧ 4 ≤ (tokenAt lc pk i).length ∧ (tokenAt lc pk i).length ≤ 8
          ∧ ∀ c ∈ (tokenAt lc pk i).toList, c ∈ ascii_chars)
  ∧ (∀ (count maxA : Count) (lc : Nat → Fin 5) (pk : Nat → Nat → Fin 36)
        (avail : Nat → String → Bool) (intr : Option Nat) (fuel : Nat)
        (urls : List String) (attempts : Nat),
      ∃ t, (explore_loop count maxA lc pk avail intr fuel urls attempts).urls
        = urls ++ t) := by
  refine ⟨?_, ?_, explore_loop_append⟩
  · intro n maxAttempts lc pk avail intr fuel
    exact explore_loop_count_le n _ lc pk avail intr fuel [] 0 (Nat.zero_le n)
  · intro count maxAttempts lc pk avail intr fuel u hu
    rcases explore_loop_mem count _ lc pk avail intr fuel [] 0 u hu with
      h | ⟨i, rfl⟩
    · exact absurd h (List.not_mem_nil u)
    · exact ⟨i, rfl, (tokenAt_length lc pk i).1, (tokenAt_length lc pk i).2,
        generate_random_mem _ _⟩

/-- Witness for C10: the single collected URL of a concrete run has the
claimed shape. -/
theorem C10_witness :
    ∃ i, "https://rentry.co/aaaa" =
        "https://rentry.co/" ++ tokenAt (fun _ => 0) (fun _ _ => 0) i
      ∧ 4 ≤ (tokenAt (fun _ => 0) (fun _ _ => 0) i).length
      ∧ (tokenAt (fun _ => 0) (fun _ _ => 0) i).length ≤ 8
      ∧ ∀ c ∈ (tokenAt (fun _ => 0) (fun _ _ => 0) i).toList, c ∈ ascii_chars :=
  C10_result_urls.2.1 (Count.fin 1) none (fun _ => 0) (fun _ _ => 0)
    (fun _ _ => true) none 10 "https://rentry.co/aaaa" (by decide)
